import Mathlib

/-
Verification of the mood-based song recommender (src/app.py and
src/training/train_model.py) against its specification.

The Flask handler api_predict, the keyword tables MOOD_MAP, MOOD_KEYWORDS and
LANGUAGE_KEYWORDS, and the two preprocess_text functions are embedded below as
executable Lean definitions.  Library collaborators that the repository calls
but does not define (nltk word_tokenize, nltk stopwords, nltk PorterStemmer,
Python str.lower / str.isalnum / str.isalpha) are modelled explicitly; each
model carries a doc comment saying what it models and on which inputs the
model is exact.  All modelled text functions are restricted to ASCII text,
which covers every input used by the theorems.
-/

/-- Model of Python str.lower on one ASCII character: an uppercase ASCII
letter is shifted down by 32, every other character is unchanged. -/
def charLower (c : Char) : Char :=
  if 65 ≤ c.toNat ∧ c.toNat ≤ 90 then Char.ofNat (c.toNat + 32) else c

/-- Model of Python str.lower (ASCII restriction): lowercases every character. -/
def pyLower (s : String) : String :=
  String.mk (s.data.map charLower)

/-- ASCII decimal digit. -/
def isDigitChar (c : Char) : Bool :=
  48 ≤ c.toNat && c.toNat ≤ 57

/-- ASCII letter, either case. -/
def isAlphaChar (c : Char) : Bool :=
  (65 ≤ c.toNat && c.toNat ≤ 90) || (97 ≤ c.toNat && c.toNat ≤ 122)

/-- ASCII letter or digit. -/
def isAlnumChar (c : Char) : Bool :=
  isAlphaChar c || isDigitChar c

/-- Model of Python str.isalnum (ASCII restriction): true iff the string is
nonempty and every character is alphanumeric. -/
def pyIsalnum (s : String) : Bool :=
  !s.data.isEmpty && s.data.all isAlnumChar

/-- Model of Python str.isalpha (ASCII restriction): true iff the string is
nonempty and every character is a letter. -/
def pyIsalpha (s : String) : Bool :=
  !s.data.isEmpty && s.data.all isAlphaChar

/-- Whitespace characters recognised by the tokenizer model. -/
def isSpaceChar (c : Char) : Bool :=
  c = ' ' || c = '\t' || c = '\n' || c = '\r'

/-- Accumulator-style splitter: groups maximal runs of non-whitespace
characters into tokens.  The accumulator holds the current token reversed. -/
def splitAux : List Char → List Char → List String
  | [], acc => if acc.isEmpty then [] else [String.mk acc.reverse]
  | c :: cs, acc =>
    if isSpaceChar c then
      if acc.isEmpty then splitAux cs []
      else String.mk acc.reverse :: splitAux cs []
    else splitAux cs (c :: acc)

/-- Model of nltk.tokenize.word_tokenize: splitting on whitespace.  On text
made of whitespace-separated alphanumeric tokens (the only shape of text the
theorems below feed to it) this agrees exactly with the NLTK tokenizer, which
only differs on punctuation, contractions and sentence boundaries. -/
def wordTokenize (s : String) : List String :=
  splitAux s.data []

/-- Model of the NLTK English stopword list loaded by both source files via
stopwords.words with the argument english.  The entries of the real list that
contain an apostrophe (such as the contracted forms of should and is) are
omitted here: both repository functions test stopword membership only after
an isalnum or isalpha check, which every apostrophe-bearing token fails, so
the omitted entries can never influence either filter. -/
def stop_words : List String :=
  ["i", "me", "my", "myself", "we", "our", "ours", "ourselves", "you",
   "your", "yours", "yourself", "yourselves", "he", "him", "his", "himself",
   "she", "her", "hers", "herself", "it", "its", "itself", "they", "them",
   "their", "theirs", "themselves", "what", "which", "who", "whom", "this",
   "that", "these", "those", "am", "is", "are", "was", "were", "be", "been",
   "being", "have", "has", "had", "having", "do", "does", "did", "doing",
   "a", "an", "the", "and", "but", "if", "or", "because", "as", "until",
   "while", "of", "at", "by", "for", "with", "about", "against", "between",
   "into", "through", "during", "before", "after", "above", "below", "to",
   "from", "up", "down", "in", "out", "on", "off", "over", "under", "again",
   "further", "then", "once", "here", "there", "when", "where", "why", "how",
   "all", "any", "both", "each", "few", "more", "most", "other", "some",
   "such", "no", "nor", "not", "only", "own", "same", "so", "than", "too",
   "very", "s", "t", "can", "will", "just", "don", "should", "now", "d",
   "ll", "m", "o", "re", "ve", "y", "ain", "aren", "couldn", "didn",
   "doesn", "hadn", "hasn", "haven", "isn", "ma", "mightn", "mustn",
   "needn", "shan", "shouldn", "wasn", "weren", "won", "wouldn"]

/-
Model of nltk.stem.PorterStemmer (its default NLTK_EXTENSIONS mode), which
app.py instantiates once as a module-level stemmer.  The algorithm below
follows the NLTK implementation: the irregular-form pool, the short-word
shortcut, steps 1a, 1b, 1c, 2, 3, 4, 5a and 5b with the NLTK-specific extra
rules, all expressed over the list of characters of a lowercase word.
-/

/-- True for the five vowel letters a e i o u. -/
def vowelChar (c : Char) : Bool :=
  c = 'a' || c = 'e' || c = 'i' || c = 'o' || c = 'u'

/-- Consonant flags of a word, left to right: a character is a consonant
unless it is a vowel letter, or it is y preceded by a consonant (y at the
start of the word counts as a consonant).  The running argument carries the
flag of the previous character. -/
def consFlagsAux : Option Bool → List Char → List Bool
  | _, [] => []
  | prev, c :: cs =>
    let f : Bool :=
      if vowelChar c then false
      else if c = 'y' then
        match prev with
        | none => true
        | some p => !p
      else true
    f :: consFlagsAux (some f) cs

/-- Consonant flags of a word. -/
def consFlags (w : List Char) : List Bool :=
  consFlagsAux none w

/-- Counts adjacent vowel-consonant pairs in a flag sequence; the first
argument is the flag preceding the sequence. -/
def countVCAux : Bool → List Bool → Nat
  | _, [] => 0
  | prev, b :: rest => (if !prev && b then 1 else 0) + countVCAux b rest

/-- The Porter measure m of a word: the number of vowel-to-consonant
transitions in its consonant-flag sequence. -/
def measureW (w : List Char) : Nat :=
  match consFlags w with
  | [] => 0
  | f :: rest => countVCAux f rest

/-- Positive Porter measure. -/
def hasPosMeasure (w : List Char) : Bool :=
  decide (0 < measureW w)

/-- The word contains at least one vowel position. -/
def containsVowelW (w : List Char) : Bool :=
  (consFlags w).any (fun f => !f)

/-- The word ends in a doubled consonant. -/
def endsDoubleConsW (w : List Char) : Bool :=
  match w.reverse with
  | a :: b :: _ => a == b && ((consFlags w).getLast?.getD false)
  | _ => false

/-- The word ends consonant-vowel-consonant where the final consonant is not
w, x or y; or (NLTK extension) the word is exactly vowel-consonant. -/
def endsCVCW (w : List Char) : Bool :=
  (match (consFlags w).reverse, w.reverse with
   | f1 :: f2 :: f3 :: _, c1 :: _ =>
     f3 && !f2 && f1 && !(c1 = 'w' || c1 = 'x' || c1 = 'y')
   | _, _ => false)
  ||
  (match consFlags w with
   | [f0, f1] => !f0 && f1
   | _ => false)

/-- Does w end with the given suffix. -/
def endsWithL (w suf : List Char) : Bool :=
  suf.isSuffixOf w

/-- Removes a suffix of the given length from the end of w. -/
def dropSuffixL (w suf : List Char) : List Char :=
  w.take (w.length - suf.length)

/-- A Porter rewrite rule: suffix, replacement, optional condition tested on
the word with the suffix removed. -/
def applyRuleList (w : List Char) :
    List (List Char × List Char × Option (List Char → Bool)) → List Char
  | [] => w
  | (suf, rep, cond) :: rs =>
    if endsWithL w suf then
      let stem := dropSuffixL w suf
      match cond with
      | none => stem ++ rep
      | some c => if c stem then stem ++ rep else w
    else applyRuleList w rs

/-- Porter step 1a with the NLTK four-letter ies rule. -/
def step1a (w : List Char) : List Char :=
  if endsWithL w "ies".toList && w.length == 4 then
    dropSuffixL w "ies".toList ++ "ie".toList
  else
    applyRuleList w
      [("sses".toList, "ss".toList, none),
       ("ies".toList, "i".toList, none),
       ("ss".toList, "ss".toList, none),
       ("s".toList, [], none)]

/-- Cleanup applied after a successful ed or ing removal in step 1b. -/
def step1bPost (stem : List Char) : List Char :=
  if endsWithL stem "at".toList then stem ++ "e".toList
  else if endsWithL stem "bl".toList then stem ++ "e".toList
  else if endsWithL stem "iz".toList then stem ++ "e".toList
  else if endsDoubleConsW stem then
    if stem.getLast?.getD ' ' = 'l' || stem.getLast?.getD ' ' = 's' ||
        stem.getLast?.getD ' ' = 'z' then stem
    else stem.dropLast
  else if measureW stem == 1 && endsCVCW stem then stem ++ "e".toList
  else stem

/-- Porter step 1b with the NLTK ied rule. -/
def step1b (w : List Char) : List Char :=
  if endsWithL w "ied".toList then
    if w.length == 4 then dropSuffixL w "ied".toList ++ "ie".toList
    else dropSuffixL w "ied".toList ++ "i".toList
  else if endsWithL w "eed".toList then
    let stem := dropSuffixL w "eed".toList
    if hasPosMeasure stem then stem ++ "ee".toList else w
  else if endsWithL w "ed".toList &&
      containsVowelW (dropSuffixL w "ed".toList) then
    step1bPost (dropSuffixL w "ed".toList)
  else if endsWithL w "ing".toList &&
      containsVowelW (dropSuffixL w "ing".toList) then
    step1bPost (dropSuffixL w "ing".toList)
  else w

/-- Porter step 1c with the NLTK condition: final y becomes i only when the
rest of the word has length over one and ends in a consonant. -/
def step1c (w : List Char) : List Char :=
  if endsWithL w "y".toList then
    let stem := w.dropLast
    if decide (1 < stem.length) && ((consFlags stem).getLast?.getD false) then
      stem ++ "i".toList
    else w
  else w

/-- The step 2 rule table shared by all iterations; the logi condition is
evaluated on the word with only logi-minus-l removed, as in NLTK. -/
def step2Rules (w : List Char) :
    List (List Char × List Char × Option (List Char → Bool)) :=
  [("ational".toList, "ate".toList, some hasPosMeasure),
   ("tional".toList, "tion".toList, some hasPosMeasure),
   ("enci".toList, "ence".toList, some hasPosMeasure),
   ("anci".toList, "ance".toList, some hasPosMeasure),
   ("izer".toList, "ize".toList, some hasPosMeasure),
   ("bli".toList, "ble".toList, some hasPosMeasure),
   ("alli".toList, "al".toList, some hasPosMeasure),
   ("entli".toList, "ent".toList, some hasPosMeasure),
   ("eli".toList, "e".toList, some hasPosMeasure),
   ("ousli".toList, "ous".toList, some hasPosMeasure),
   ("ization".toList, "ize".toList, some hasPosMeasure),
   ("ation".toList, "ate".toList, some hasPosMeasure),
   ("ator".toList, "ate".toList, some hasPosMeasure),
   ("alism".toList, "al".toList, some hasPosMeasure),
   ("iveness".toList, "ive".toList, some hasPosMeasure),
   ("fulness".toList, "ful".toList, some hasPosMeasure),
   ("ousness".toList, "ous".toList, some hasPosMeasure),
   ("aliti".toList, "al".toList, some hasPosMeasure),
   ("iviti".toList, "ive".toList, some hasPosMeasure),
   ("biliti".toList, "ble".toList, some hasPosMeasure),
   ("fulli".toList, "ful".toList, some hasPosMeasure),
   ("logi".toList, "log".toList,
     some (fun _ => hasPosMeasure (w.take (w.length - 3))))]

/-- Porter step 2 with the NLTK alli pre-rule, which reapplies step 2 to its
own result; the fuel argument (initialised to the word length, which strictly
bounds the possible number of alli iterations) makes the recursion
structural.  The fuel-exhausted branch is unreachable because each alli
iteration shortens the word by two characters. -/
def step2Fuel : Nat → List Char → List Char
  | 0, w => applyRuleList w (step2Rules w)
  | fuel + 1, w =>
    if endsWithL w "alli".toList &&
        hasPosMeasure (dropSuffixL w "alli".toList) then
      step2Fuel fuel (dropSuffixL w "alli".toList ++ "al".toList)
    else applyRuleList w (step2Rules w)

/-- Porter step 2. -/
def step2 (w : List Char) : List Char :=
  step2Fuel w.length w

/-- Porter step 3. -/
def step3 (w : List Char) : List Char :=
  applyRuleList w
    [("icate".toList, "ic".toList, some hasPosMeasure),
     ("ative".toList, [], some hasPosMeasure),
     ("alize".toList, "al".toList, some hasPosMeasure),
     ("iciti".toList, "ic".toList, some hasPosMeasure),
     ("ical".toList, "ic".toList, some hasPosMeasure),
     ("ful".toList, [], some hasPosMeasure),
     ("ness".toList, [], some hasPosMeasure)]

/-- Measure strictly above one. -/
def measureGtOne (w : List Char) : Bool :=
  decide (1 < measureW w)

/-- Porter step 4. -/
def step4 (w : List Char) : List Char :=
  applyRuleList w
    [("al".toList, [], some measureGtOne),
     ("ance".toList, [], some measureGtOne),
     ("ence".toList, [], some measureGtOne),
     ("er".toList, [], some measureGtOne),
     ("ic".toList, [], some measureGtOne),
     ("able".toList, [], some measureGtOne),
     ("ible".toList, [], some measureGtOne),
     ("ant".toList, [], some measureGtOne),
     ("ement".toList, [], some measureGtOne),
     ("ment".toList, [], some measureGtOne),
     ("ent".toList, [], some measureGtOne),
     ("ion".toList, [], some (fun stem =>
       measureGtOne stem &&
         (stem.getLast?.getD ' ' = 's' || stem.getLast?.getD ' ' = 't'))),
     ("ou".toList, [], some measureGtOne),
     ("ism".toList, [], some measureGtOne),
     ("ate".toList, [], some measureGtOne),
     ("iti".toList, [], some measureGtOne),
     ("ous".toList, [], some measureGtOne),
     ("ive".toList, [], some measureGtOne),
     ("ize".toList, [], some measureGtOne)]

/-- Porter step 5a. -/
def step5a (w : List Char) : List Char :=
  if endsWithL w "e".toList then
    let stem := w.dropLast
    if measureGtOne stem then stem
    else if measureW stem == 1 && !endsCVCW stem then stem
    else w
  else w

/-- Porter step 5b. -/
def step5b (w : List Char) : List Char :=
  if measureGtOne w && endsDoubleConsW w && endsWithL w "l".toList then
    w.dropLast
  else w

/-- The NLTK irregular-form pool consulted before the algorithm proper. -/
def porterPool : List (String × String) :=
  [("sky", "sky"), ("skies", "sky"), ("dying", "die"), ("lying", "lie"),
   ("tying", "tie"), ("news", "news"), ("innings", "inning"),
   ("outings", "outing"), ("cannings", "canning"), ("howe", "howe"),
   ("proceed", "proceed"), ("exceed", "exceed"), ("succeed", "succeed")]

/-- Model of the stem method of nltk.stem.PorterStemmer in its default
NLTK_EXTENSIONS mode: lowercase, consult the irregular pool, return words of
length at most two unchanged, otherwise run steps 1a through 5b. -/
def porterStem (word : String) : String :=
  let w := pyLower word
  match porterPool.lookup w with
  | some r => r
  | none =>
    if w.length ≤ 2 then w
    else
      String.mk
        (step5b (step5a (step4 (step3 (step2 (step1c (step1b (step1a
          w.data))))))))

/-- Model of the join method of the Python string containing one space:
concatenates the words with a single space between consecutive words. -/
def joinWords : List String → String
  | [] => ""
  | [w] => w
  | w :: ws => w ++ " " ++ joinWords ws

/-- The token filter of preprocess_text in app.py: the token is alphanumeric
and is not a stopword. -/
def keepToken (w : String) : Bool :=
  pyIsalnum w && !(stop_words.contains w)

/-- Embedding of preprocess_text from src/app.py: lowercase, tokenize, keep
the alphanumeric non-stopword tokens, stem each kept token, join the results
with single spaces. -/
def preprocess_text (text : String) : String :=
  let tokens := wordTokenize (pyLower text)
  joinWords ((tokens.filter keepToken).map porterStem)

/-- Embedding of preprocess_text from src/training/train_model.py: lowercase,
tokenize, keep only alphabetic tokens, drop stopwords, join with single
spaces.  No stemming is applied.  The Python guard returning the empty string
for non-string input is vacuous here because the argument type is String. -/
def preprocess_text_train (text : String) : String :=
  let tokens := wordTokenize (pyLower text)
  let tokens := tokens.filter pyIsalpha
  let tokens := tokens.filter (fun w => !(stop_words.contains w))
  joinWords tokens

/-- Embedding of the MOOD_MAP dictionary of app.py, keyed by the integer
label the classifier produces. -/
def MOOD_MAP : List (Int × String) :=
  [(0, "sadness"), (1, "joy"), (2, "love"), (3, "anger"), (4, "fear"),
   (5, "surprise")]

/-- Embedding of the call MOOD_MAP.get with default joy in api_predict. -/
def mood_of_label (n : Int) : String :=
  ((MOOD_MAP.lookup n).getD "joy")

/-- Embedding of the MOOD_KEYWORDS dictionary of app.py. -/
def MOOD_KEYWORDS : List (String × String) :=
  [("joy", "happy"), ("sadness", "sad"), ("anger", "angry"),
   ("love", "love"), ("fear", "dark"), ("surprise", "surprise"),
   ("uplift", "uplifting")]

/-- Embedding of the call MOOD_KEYWORDS.get with default happy. -/
def mood_keyword_of (m : String) : String :=
  ((MOOD_KEYWORDS.lookup m).getD "happy")

/-- Embedding of the LANGUAGE_KEYWORDS dictionary of app.py. -/
def LANGUAGE_KEYWORDS : List (String × String) :=
  [("en", "english"), ("te", "telugu"), ("hi", "hindi")]

/-- Embedding of the call LANGUAGE_KEYWORDS.get with default english. -/
def language_keyword_of (l : String) : String :=
  ((LANGUAGE_KEYWORDS.lookup l).getD "english")

/-- The three raw moods eligible for the uplift override in api_predict. -/
def UPLIFT_MOODS : List String :=
  ["sadness", "anger", "fear"]

/-- The six mood labels MOOD_MAP can produce. -/
def MOOD_LABELS : List String :=
  ["sadness", "joy", "love", "anger", "fear", "surprise"]

/-- Embedding of the mood-resolution step of api_predict (the conditional
choosing search_mood from the predicted mood and the user preference). -/
def resolve_search_mood (mood preference : String) : String :=
  if preference = "uplift" ∧ mood ∈ UPLIFT_MOODS then "uplift" else mood

/-- Embedding of the query construction of api_predict: mood keyword, one
space, language keyword. -/
def buildQuery (search_mood language_choice : String) : String :=
  mood_keyword_of search_mood ++ " " ++ language_keyword_of language_choice

/-- A scalar JSON value, the payload type of the request fields.  JSON
arrays and objects as field values are not modelled; every claim concerns
scalar fields only. -/
inductive JVal where
  | jnull : JVal
  | jbool : Bool → JVal
  | jnum : Int → JVal
  | jstr : String → JVal
deriving DecidableEq, Repr

/-- A track descriptor as returned by the search call of the provider
client: the fields api_predict reads from each element of the items list.
The artists field holds the artist names in order, the albumImages field the
album image urls in order, previewUrl is null or a url, spotifyUrl is the
canonical external url. -/
structure SpotifyTrack where
  id : String
  name : String
  artists : List String
  albumImages : List String
  previewUrl : Option String
  spotifyUrl : String
deriving DecidableEq, Repr

/-- The caller-facing track record api_predict appends to the songs list. -/
structure TrackRecord where
  id : String
  song_name : String
  artist : String
  image_url : String
  preview_url : Option String
  spotify_url : String
deriving DecidableEq, Repr

/-- The placeholder image url substituted when the album image list is
empty. -/
def PLACEHOLDER_IMAGE : String :=
  "https://placehold.co/100x100/222/fff?text=No+Art"

/-- Shaping of one provider track, following the loop body of api_predict:
reading the first artist raises an index error when the artist list is empty
(modelled as the error case); the image url is the first album image when
the image list is nonempty, the placeholder otherwise; the preview url is
passed through unchanged. -/
def shapeTrack (t : SpotifyTrack) : Except String TrackRecord :=
  match t.artists with
  | [] => Except.error "list index out of range"
  | a :: _ =>
    Except.ok
      { id := t.id
        song_name := t.name
        artist := a
        image_url :=
          match t.albumImages with
          | [] => PLACEHOLDER_IMAGE
          | u :: _ => u
        preview_url := t.previewUrl
        spotify_url := t.spotifyUrl }

/-- Shaping of the whole result list, following the for loop of api_predict:
tracks are shaped in order and an exception inside the loop abandons the
whole batch (the partially built songs list is discarded by the surrounding
exception handler). -/
def shapeBatch : List SpotifyTrack → Except String (List TrackRecord)
  | [] => Except.ok []
  | t :: ts =>
    match shapeTrack t with
    | Except.error e => Except.error e
    | Except.ok r =>
      match shapeBatch ts with
      | Except.error e => Except.error e
      | Except.ok rs => Except.ok (r :: rs)

/-- The outcome of one api_predict request: badRequest models the 400
response with body carrying an error string, serverError the 500 response
produced by the surrounding exception handler, ok the 200 response with the
mood string and the songs list. -/
inductive ApiResult where
  | badRequest : String → ApiResult
  | serverError : String → ApiResult
  | ok : String → List TrackRecord → ApiResult
deriving DecidableEq, Repr

/-- Which pipeline stages a request execution reached: text normalization
(the preprocess_text call, counted as reached even when it raises on a
non-string message), vectorization plus classification, and the provider
search call. -/
structure ApiEffects where
  ranNormalize : Bool
  ranClassify : Bool
  ranSearch : Bool
deriving DecidableEq, Repr

/-- No pipeline stage reached. -/
def noEffects : ApiEffects :=
  { ranNormalize := false, ranClassify := false, ranSearch := false }

/-- Every pipeline stage reached. -/
def allEffects : ApiEffects :=
  { ranNormalize := true, ranClassify := true, ranSearch := true }

/-- The error string of the 400 response of api_predict, modelled without
the quote characters of the original literal. -/
def MESSAGE_REQUIRED_ERROR : String :=
  "Invalid request. message is required."

/-- Embedding of the api_predict handler of src/app.py.

The frozen artifacts are abstracted by the classify argument, the composite
of vectorizer.transform and model.predict on the preprocessed text; the
provider is abstracted by the search argument, giving the items list of a
successful search call for a query.  The parsed JSON body is an optional
association list: none models a request whose parsed body is null, an empty
list models an empty JSON object, both of which the handler rejects together
with bodies lacking the message key.  A non-string message passes the
validation and then raises inside preprocess_text (no lower attribute),
which the surrounding handler turns into a 500 response.  The result is
paired with the set of pipeline stages that were reached. -/
def api_predict (classify : String → Int)
    (search : String → List SpotifyTrack)
    (data : Option (List (String × JVal))) : ApiResult × ApiEffects :=
  match data with
  | none => (ApiResult.badRequest MESSAGE_REQUIRED_ERROR, noEffects)
  | some kvs =>
    if kvs.isEmpty ∨ (kvs.lookup "message") = none then
      (ApiResult.badRequest MESSAGE_REQUIRED_ERROR, noEffects)
    else
      match (kvs.lookup "message").getD JVal.jnull with
      | JVal.jstr text =>
        let language_choice := (kvs.lookup "language").getD (JVal.jstr "en")
        let user_preference :=
          (kvs.lookup "preference").getD (JVal.jstr "match")
        let processed_text := preprocess_text text
        let prediction := classify processed_text
        let mood := mood_of_label prediction
        let search_mood :=
          if user_preference = JVal.jstr "uplift" ∧ mood ∈ UPLIFT_MOODS then
            "uplift"
          else mood
        let lang_keyword :=
          match language_choice with
          | JVal.jstr l => language_keyword_of l
          | _ => "english"
        let query := mood_keyword_of search_mood ++ " " ++ lang_keyword
        let results := search query
        match shapeBatch results with
        | Except.ok songs => (ApiResult.ok search_mood songs, allEffects)
        | Except.error e => (ApiResult.serverError e, allEffects)
      | _ =>
        (ApiResult.serverError "object has no attribute lower",
         { ranNormalize := true, ranClassify := false, ranSearch := false })

/-- True exactly on the 400 outcome. -/
def isBadRequest : ApiResult → Bool
  | ApiResult.badRequest _ => true
  | _ => false

/-- The record shapeTrack produces when the artist list of the track is
nonempty: all fields of the provider track carried over, the first artist,
and the first album image with the placeholder substituted when the album
image list is empty. -/
def shapeTrackUnchecked (t : SpotifyTrack) : TrackRecord :=
  { id := t.id
    song_name := t.name
    artist := t.artists.headD ""
    image_url :=
      match t.albumImages with
      | [] => PLACEHOLDER_IMAGE
      | u :: _ => u
    preview_url := t.previewUrl
    spotify_url := t.spotifyUrl }

/-- On a batch whose tracks all carry at least one artist, the shaper
succeeds and produces exactly the per-track records in order. -/
theorem shapeBatch_ok_of_artists (ts : List SpotifyTrack)
    (h : ∀ t ∈ ts, t.artists ≠ []) :
    shapeBatch ts = Except.ok (ts.map shapeTrackUnchecked) := by
  induction ts with
  | nil => rfl
  | cons t ts ih =>
    obtain ⟨a, as, ha⟩ :=
      List.exists_cons_of_ne_nil (h t (List.mem_cons_self t ts))
    have ih' := ih (fun t' ht' => h t' (List.mem_cons_of_mem t ht'))
    simp [shapeBatch, shapeTrack, ha, ih', shapeTrackUnchecked]

/-- C1: for every mood label m in the six-label set and every preference
string p, the mood-resolution step returns uplift exactly when p is uplift
and m is one of sadness, anger, fear; in every other case it returns m
unchanged. -/
theorem c1_resolve_policy (m p : String) (hm : m ∈ MOOD_LABELS) :
    (resolve_search_mood m p = "uplift" ↔
      p = "uplift" ∧ m ∈ UPLIFT_MOODS) ∧
    (¬(p = "uplift" ∧ m ∈ UPLIFT_MOODS) → resolve_search_mood m p = m) := by
  constructor
  · constructor
    · intro h
      by_contra hc
      rw [resolve_search_mood, if_neg hc] at h
      rw [h] at hm
      exact absurd hm (by decide)
    · intro h
      rw [resolve_search_mood, if_pos h]
  · intro h
    rw [resolve_search_mood, if_neg h]

/-- Closed instance of c1_resolve_policy at mood sadness and preference
uplift. -/
theorem c1_resolve_policy_witness :
    (resolve_search_mood "sadness" "uplift" = "uplift" ↔
      "uplift" = "uplift" ∧ "sadness" ∈ UPLIFT_MOODS) ∧
    (¬("uplift" = "uplift" ∧ "sadness" ∈ UPLIFT_MOODS) →
      resolve_search_mood "sadness" "uplift" = "sadness") :=
  c1_resolve_policy "sadness" "uplift" (by decide)

/-- Every value mood_keyword_of can return is one of the seven mood
keywords or the default happy. -/
theorem mood_keyword_of_mem (s : String) :
    mood_keyword_of s ∈
      ["happy", "sad", "angry", "love", "dark", "surprise", "uplifting"] := by
  unfold mood_keyword_of MOOD_KEYWORDS
  simp only [List.lookup]
  repeat' split
  all_goals simp

/-- Every value language_keyword_of can return is one of the three language
keywords or the default english. -/
theorem language_keyword_of_mem (l : String) :
    language_keyword_of l ∈ ["english", "telugu", "hindi"] := by
  unfold language_keyword_of LANGUAGE_KEYWORDS
  simp only [List.lookup]
  repeat' split
  all_goals simp

/-- C2: the query builder returns mood keyword, a single space, language
keyword; the keywords come from the fixed maps with defaults happy and
english for absent keys; and neither keyword segment is ever empty. -/
theorem c2_query_builder :
    (∀ s l, buildQuery s l =
      mood_keyword_of s ++ " " ++ language_keyword_of l) ∧
    mood_keyword_of "sadness" = "sad" ∧
    mood_keyword_of "joy" = "happy" ∧
    mood_keyword_of "love" = "love" ∧
    mood_keyword_of "anger" = "angry" ∧
    mood_keyword_of "fear" = "dark" ∧
    mood_keyword_of "surprise" = "surprise" ∧
    mood_keyword_of "uplift" = "uplifting" ∧
    language_keyword_of "en" = "english" ∧
    language_keyword_of "te" = "telugu" ∧
    language_keyword_of "hi" = "hindi" ∧
    (∀ s, s ∉ MOOD_KEYWORDS.map Prod.fst → mood_keyword_of s = "happy") ∧
    (∀ l, l ∉ LANGUAGE_KEYWORDS.map Prod.fst →
      language_keyword_of l = "english") ∧
    (∀ s, mood_keyword_of s ≠ "") ∧
    (∀ l, language_keyword_of l ≠ "") := by
  refine ⟨fun s l => rfl, rfl, rfl, rfl, rfl, rfl, rfl, rfl, rfl, rfl, rfl,
    ?_, ?_, ?_, ?_⟩
  · intro s hs
    simp [MOOD_KEYWORDS] at hs
    obtain ⟨h1, h2, h3, h4, h5, h6, h7⟩ := hs
    simp [mood_keyword_of, MOOD_KEYWORDS, List.lookup,
      beq_eq_false_iff_ne.mpr h1, beq_eq_false_iff_ne.mpr h2,
      beq_eq_false_iff_ne.mpr h3, beq_eq_false_iff_ne.mpr h4,
      beq_eq_false_iff_ne.mpr h5, beq_eq_false_iff_ne.mpr h6,
      beq_eq_false_iff_ne.mpr h7]
  · intro l hl
    simp [LANGUAGE_KEYWORDS] at hl
    obtain ⟨h1, h2, h3⟩ := hl
    simp [language_keyword_of, LANGUAGE_KEYWORDS, List.lookup,
      beq_eq_false_iff_ne.mpr h1, beq_eq_false_iff_ne.mpr h2,
      beq_eq_false_iff_ne.mpr h3]
  · intro s
    have h := mood_keyword_of_mem s
    simp only [List.mem_cons, List.not_mem_nil, or_false] at h
    rcases h with h | h | h | h | h | h | h <;> rw [h] <;> decide
  · intro l
    have h := language_keyword_of_mem l
    simp only [List.mem_cons, List.not_mem_nil, or_false] at h
    rcases h with h | h | h <;> rw [h] <;> decide

/-- Closed instance of c2_query_builder: an unmapped mood and an unmapped
language both fall back to their defaults and the query keeps the
mood-first single-space shape. -/
theorem c2_query_builder_witness :
    mood_keyword_of "chill" = "happy" ∧
    language_keyword_of "fr" = "english" ∧
    buildQuery "chill" "fr" = mood_keyword_of "chill" ++ " " ++
      language_keyword_of "fr" ∧
    mood_keyword_of "chill" ≠ "" ∧ language_keyword_of "fr" ≠ "" :=
  ⟨c2_query_builder.2.2.2.2.2.2.2.2.2.2.2.1 "chill" (by decide),
   c2_query_builder.2.2.2.2.2.2.2.2.2.2.2.2.1 "fr" (by decide),
   c2_query_builder.1 "chill" "fr",
   c2_query_builder.2.2.2.2.2.2.2.2.2.2.2.2.2.1 "chill",
   c2_query_builder.2.2.2.2.2.2.2.2.2.2.2.2.2.2 "fr"⟩

/-- C6: the classifier label is translated through MOOD_MAP with its fixed
ordinal entries, and every label outside zero to five falls back to joy. -/
theorem c6_mood_map_translation :
    mood_of_label 0 = "sadness" ∧ mood_of_label 1 = "joy" ∧
    mood_of_label 2 = "love" ∧ mood_of_label 3 = "anger" ∧
    mood_of_label 4 = "fear" ∧ mood_of_label 5 = "surprise" ∧
    ∀ n : Int, (n < 0 ∨ 5 < n) → mood_of_label n = "joy" := by
  refine ⟨rfl, rfl, rfl, rfl, rfl, rfl, ?_⟩
  intro n hn
  have h0 : n ≠ 0 := by omega
  have h1 : n ≠ 1 := by omega
  have h2 : n ≠ 2 := by omega
  have h3 : n ≠ 3 := by omega
  have h4 : n ≠ 4 := by omega
  have h5 : n ≠ 5 := by omega
  simp [mood_of_label, MOOD_MAP, List.lookup,
    beq_eq_false_iff_ne.mpr h0, beq_eq_false_iff_ne.mpr h1,
    beq_eq_false_iff_ne.mpr h2, beq_eq_false_iff_ne.mpr h3,
    beq_eq_false_iff_ne.mpr h4, beq_eq_false_iff_ne.mpr h5]

/-- Closed instance of c6_mood_map_translation at the out-of-range label
six. -/
theorem c6_mood_map_translation_witness : mood_of_label 6 = "joy" :=
  c6_mood_map_translation.2.2.2.2.2.2 6 (by omega)

/-- C5 fails as stated: a provider track whose album image list holds one
image with an empty url string is shaped with an empty image_url, because
the placeholder is substituted only when the image list itself is empty.
The other fields are populated, yet the image_url field of the shaped
record is the empty string. -/
theorem c5_counterexample :
    shapeTrack ⟨"t1", "song", ["artist"], [""], none, "su"⟩ =
      Except.ok ⟨"t1", "song", "artist", "", none, "su"⟩ := rfl

/-- C5 amended: for every provider track carrying at least one artist, the
shaped record substitutes the nonempty placeholder exactly when the album
image list is empty, passes the first image url through otherwise, and
populates every other field from the track. -/
theorem c5_amended_image_url (t : SpotifyTrack) (h : t.artists ≠ []) :
    ∃ r, shapeTrack t = Except.ok r ∧
      r.id = t.id ∧ r.song_name = t.name ∧
      some r.artist = t.artists.head? ∧
      r.preview_url = t.previewUrl ∧ r.spotify_url = t.spotifyUrl ∧
      (t.albumImages = [] →
        r.image_url = PLACEHOLDER_IMAGE ∧ r.image_url ≠ "") ∧
      (∀ u us, t.albumImages = u :: us → r.image_url = u) := by
  obtain ⟨a, as, ha⟩ := List.exists_cons_of_ne_nil h
  refine ⟨shapeTrackUnchecked t, ?_, rfl, rfl, ?_, rfl, rfl, ?_, ?_⟩
  · simp [shapeTrack, ha, shapeTrackUnchecked]
  · simp [shapeTrackUnchecked, ha]
  · intro hi
    constructor
    · simp [shapeTrackUnchecked, hi]
    · simp [shapeTrackUnchecked, hi, PLACEHOLDER_IMAGE]
  · intro u us hi
    simp [shapeTrackUnchecked, hi]

/-- Closed instance of c5_amended_image_url at a track with an empty album
image list. -/
theorem c5_amended_image_url_witness :
    ∃ r, shapeTrack ⟨"t2", "s2", ["a2"], [], none, "u2"⟩ = Except.ok r ∧
      r.id = "t2" ∧ r.song_name = "s2" ∧
      some r.artist = (["a2"] : List String).head? ∧
      r.preview_url = none ∧ r.spotify_url = "u2" ∧
      (([] : List String) = [] →
        r.image_url = PLACEHOLDER_IMAGE ∧ r.image_url ≠ "") ∧
      (∀ u us, ([] : List String) = u :: us → r.image_url = u) :=
  c5_amended_image_url ⟨"t2", "s2", ["a2"], [], none, "u2"⟩ (by decide)

/-- C7: on every batch whose tracks all carry at least one artist, the
shaper produces exactly one record per provider track, in the provider
order, without dropping tracks: a missing optional field never fails the
batch, the empty album image list becoming the placeholder and the null
preview url being passed through inside shapeTrackUnchecked. -/
theorem c7_shaper_one_per_track (ts : List SpotifyTrack)
    (h : ∀ t ∈ ts, t.artists ≠ []) :
    shapeBatch ts = Except.ok (ts.map shapeTrackUnchecked) ∧
    ∀ rs, shapeBatch ts = Except.ok rs → rs.length = ts.length := by
  have hb := shapeBatch_ok_of_artists ts h
  refine ⟨hb, ?_⟩
  intro rs hrs
  rw [hb] at hrs
  cases hrs
  exact List.length_map ts shapeTrackUnchecked

/-- Closed instance of c7_shaper_one_per_track at a two-track batch whose
first track has no album art and whose second track has no preview url. -/
theorem c7_shaper_one_per_track_witness :
    shapeBatch
      [⟨"a", "sa", ["ar1"], [], none, "u1"⟩,
       ⟨"b", "sb", ["ar2"], ["img"], some "pv", "u2"⟩] =
      Except.ok
        (List.map shapeTrackUnchecked
          [⟨"a", "sa", ["ar1"], [], none, "u1"⟩,
           ⟨"b", "sb", ["ar2"], ["img"], some "pv", "u2"⟩]) ∧
    ∀ rs, shapeBatch
      [⟨"a", "sa", ["ar1"], [], none, "u1"⟩,
       ⟨"b", "sb", ["ar2"], ["img"], some "pv", "u2"⟩] = Except.ok rs →
      rs.length = 2 :=
  c7_shaper_one_per_track
    [⟨"a", "sa", ["ar1"], [], none, "u1"⟩,
     ⟨"b", "sb", ["ar2"], ["img"], some "pv", "u2"⟩] (by decide)

/-- C9: the serving-time and training-time preprocessors differ
extensionally: on the input text run 42 the serving normalizer keeps the
digit token while the training normalizer drops it. -/
theorem c9_train_serve_differ :
    preprocess_text "run 42" = "run 42" ∧
    preprocess_text_train "run 42" = "run" ∧
    preprocess_text "run 42" ≠ preprocess_text_train "run 42" :=
  ⟨rfl, rfl, by decide⟩

/-- C3 fails as stated: a request whose message field is present but is the
empty string, which is not a non-empty string, is not rejected with a 400:
validation only tests presence of the key, so the whole pipeline runs and
the request completes with a 200 response. -/
theorem c3_counterexample :
    api_predict (fun _ => 1) (fun _ => [])
      (some [("message", JVal.jstr "")]) =
      (ApiResult.ok "joy" [], allEffects) := rfl

/-- C3 amended: the endpoint responds 400 with an error body and executes
no pipeline stage exactly for the requests whose parsed body is null or an
empty object or lacks the message key; a request carrying the message key
in a nonempty body is never answered with a 400, whatever the value of the
field. -/
theorem c3_amended_validation (classify : String → Int)
    (search : String → List SpotifyTrack)
    (data : Option (List (String × JVal))) :
    ((data = none ∨
      ∃ kvs, data = some kvs ∧ (kvs = [] ∨ kvs.lookup "message" = none)) →
      api_predict classify search data =
        (ApiResult.badRequest MESSAGE_REQUIRED_ERROR, noEffects)) ∧
    ((∃ kvs v, data = some kvs ∧ kvs ≠ [] ∧ kvs.lookup "message" = some v) →
      isBadRequest (api_predict classify search data).1 = false) := by
  constructor
  · intro h
    rcases h with h | ⟨kvs, hk, h⟩
    · rw [h]; rfl
    · subst hk
      rcases h with h | h
      · subst h; rfl
      · simp [api_predict, h]
  · intro ⟨kvs, v, hk, hne, hv⟩
    subst hk
    simp only [api_predict, hv, Option.getD_some]
    have hcond : ¬(kvs.isEmpty = true ∨ some v = none) := by
      rintro (h | h)
      · exact hne (List.isEmpty_iff.mp h)
      · cases h
    rw [if_neg hcond]
    cases v with
    | jnull => rfl
    | jbool b => rfl
    | jnum n => rfl
    | jstr text =>
      simp only
      cases shapeBatch (search _) with
      | error e => simp [isBadRequest]
      | ok songs => simp [isBadRequest]

/-- Closed instance of c3_amended_validation at a null request body. -/
theorem c3_amended_validation_witness :
    api_predict (fun _ => 0) (fun _ => []) none =
      (ApiResult.badRequest MESSAGE_REQUIRED_ERROR, noEffects) :=
  (c3_amended_validation (fun _ => 0) (fun _ => []) none).1 (Or.inl rfl)

/-- C4: the serving normalizer is the composite lowercase, tokenize, keep
alphanumeric non-stopword tokens, stem, join with single spaces; it returns
the empty string when no token survives the filter, and it is a total
function on strings. -/
theorem c4_normalizer_structure (text : String) :
    preprocess_text text =
      joinWords
        (((wordTokenize (pyLower text)).filter keepToken).map porterStem) ∧
    ((wordTokenize (pyLower text)).filter keepToken = [] →
      preprocess_text text = "") := by
  refine ⟨rfl, fun h => ?_⟩
  simp [preprocess_text, h, joinWords]

/-- Closed instance of c4_normalizer_structure at a text whose only token
is a stopword, so that nothing survives the filter. -/
theorem c4_normalizer_structure_witness :
    (wordTokenize (pyLower "the")).filter keepToken = [] ∧
    preprocess_text "the" = "" :=
  ⟨by decide, (c4_normalizer_structure "the").2 (by decide)⟩

/-- C10: a successfully completed request reports the effective search mood
as its mood field, the preference-resolved value rather than the raw
classified label; when the uplift override fires this is the synthetic
string uplift. -/
theorem c10_response_mood_is_search_mood (classify : String → Int)
    (search : String → List SpotifyTrack) (kvs : List (String × JVal))
    (s p : String)
    (hm : kvs.lookup "message" = some (JVal.jstr s))
    (hp : (kvs.lookup "preference").getD (JVal.jstr "match") = JVal.jstr p)
    (hart : ∀ q, ∀ t ∈ search q, t.artists ≠ []) :
    ∃ songs, api_predict classify search (some kvs) =
      (ApiResult.ok
        (resolve_search_mood (mood_of_label (classify (preprocess_text s)))
          p)
        songs, allEffects) := by
  have hne : kvs ≠ [] := by
    intro h
    subst h
    simp [List.lookup] at hm
  simp only [api_predict, hm, Option.getD_some, hp]
  have hcond :
      ¬(kvs.isEmpty = true ∨ (some (JVal.jstr s) : Option JVal) = none) := by
    rintro (h | h)
    · exact hne (List.isEmpty_iff.mp h)
    · cases h
  rw [if_neg hcond]
  simp only [JVal.jstr.injEq]
  rw [shapeBatch_ok_of_artists _ (hart _)]
  unfold resolve_search_mood
  exact ⟨_, rfl⟩

/-- Closed instance of c10_response_mood_is_search_mood: with a classifier
answering the sadness label and the uplift preference, the response mood
field is uplift. -/
theorem c10_response_mood_is_search_mood_witness :
    ∃ songs, api_predict (fun _ => 0)
      (fun _ => [⟨"t1", "n1", ["a1"], [], none, "u1"⟩])
      (some [("message", JVal.jstr "i feel sad"),
             ("preference", JVal.jstr "uplift")]) =
      (ApiResult.ok
        (resolve_search_mood
          (mood_of_label ((fun _ => (0 : Int)) (preprocess_text "i feel sad")))
          "uplift")
        songs, allEffects) :=
  c10_response_mood_is_search_mood (fun _ => 0)
    (fun _ => [⟨"t1", "n1", ["a1"], [], none, "u1"⟩])
    [("message", JVal.jstr "i feel sad"),
     ("preference", JVal.jstr "uplift")] "i feel sad" "uplift" rfl rfl
    (by
      intro q t ht
      simp only [List.mem_singleton] at ht
      subst ht
      decide)

/-- A lowercase ASCII letter or ASCII digit. -/
def isLowerAlnumChar (c : Char) : Bool :=
  (97 ≤ c.toNat && c.toNat ≤ 122) || (48 ≤ c.toNat && c.toNat ≤ 57)

/-- Rebuilding a string from its character list is the identity. -/
theorem string_mk_data (s : String) : String.mk s.data = s := rfl

/-- The character list of an appended string. -/
theorem string_data_append (a b : String) :
    (a ++ b).data = a.data ++ b.data := rfl

/-- A nonempty string has a nonempty character list. -/
theorem string_data_ne (s : String) (h : s ≠ "") : s.data ≠ [] := by
  intro hd
  apply h
  cases s with
  | mk data =>
    simp only at hd
    subst hd
    rfl

/-- Lowercasing fixes a lowercase alphanumeric character. -/
theorem charLower_fixed (c : Char) (h : isLowerAlnumChar c = true) :
    charLower c = c := by
  simp only [isLowerAlnumChar, Bool.or_eq_true, Bool.and_eq_true,
    decide_eq_true_eq] at h
  rw [charLower, if_neg]
  omega

/-- A lowercase alphanumeric character is not whitespace. -/
theorem isSpaceChar_eq_false_of_lowerAlnum (c : Char)
    (h : isLowerAlnumChar c = true) : isSpaceChar c = false := by
  simp only [isSpaceChar, Bool.or_eq_false_iff, decide_eq_false_iff_not]
  refine ⟨⟨⟨?_, ?_⟩, ?_⟩, ?_⟩ <;> intro hc <;> subst hc <;>
    exact absurd h (by decide)

/-- Splitting a word followed by further input moves the whole word into
the accumulator when no character of the word is whitespace. -/
theorem splitAux_append_word (w : List Char)
    (hw : ∀ c ∈ w, isSpaceChar c = false) :
    ∀ rest acc, splitAux (w ++ rest) acc = splitAux rest (w.reverse ++ acc) := by
  induction w with
  | nil => intro rest acc; simp
  | cons c w ih =>
    intro rest acc
    have hc := hw c (List.mem_cons_self c w)
    have hw' : ∀ x ∈ w, isSpaceChar x = false :=
      fun x hx => hw x (List.mem_cons_of_mem c hx)
    have hstep : splitAux ((c :: w) ++ rest) acc =
        splitAux (w ++ rest) (c :: acc) := by
      simp [splitAux, hc]
    rw [hstep, ih hw' rest (c :: acc), List.reverse_cons,
      List.append_assoc, List.singleton_append]

/-- Splitting an exhausted input with a nonempty accumulator emits the
accumulated word. -/
theorem splitAux_nil_ne (acc : List Char) (h : acc ≠ []) :
    splitAux [] acc = [String.mk acc.reverse] := by
  simp [splitAux, h]

/-- Splitting input starting with a space while the accumulator is nonempty
emits the accumulated word and restarts. -/
theorem splitAux_space (rest acc : List Char) (h : acc ≠ []) :
    splitAux (' ' :: rest) acc = String.mk acc.reverse :: splitAux rest [] := by
  simp [splitAux, h, isSpaceChar]

/-- Tokenizing a single-space join of nonempty whitespace-free words gives
back exactly those words. -/
theorem wordTokenize_joinWords (ts : List String)
    (h : ∀ t ∈ ts, t.data ≠ [] ∧ ∀ c ∈ t.data, isSpaceChar c = false) :
    wordTokenize (joinWords ts) = ts := by
  induction ts with
  | nil => rfl
  | cons w tail ih =>
    obtain ⟨hne, hw⟩ := h w (List.mem_cons_self w tail)
    cases tail with
    | nil =>
      show splitAux (joinWords [w]).data [] = [w]
      rw [show joinWords [w] = w from rfl]
      rw [show w.data = w.data ++ [] from (List.append_nil _).symm,
        splitAux_append_word w.data hw [] []]
      rw [List.append_nil, splitAux_nil_ne _ (by simpa using hne)]
      rw [List.reverse_reverse, string_mk_data]
    | cons v rest =>
      have htail := fun t ht => h t (List.mem_cons_of_mem w ht)
      have ihr := ih htail
      show splitAux (joinWords (w :: v :: rest)).data [] = w :: v :: rest
      rw [show joinWords (w :: v :: rest) = w ++ " " ++ joinWords (v :: rest)
        from rfl]
      rw [string_data_append, string_data_append]
      rw [show (" " : String).data = [' '] from rfl, List.append_assoc,
        splitAux_append_word w.data hw _ []]
      rw [List.append_nil, List.singleton_append,
        splitAux_space _ _ (by simpa using hne)]
      rw [List.reverse_reverse, string_mk_data]
      exact congrArg (w :: ·) ihr

/-- Every character of a single-space join of lowercase alphanumeric words
is lowercase alphanumeric or the space. -/
theorem joinWords_chars (ts : List String)
    (h : ∀ t ∈ ts, ∀ c ∈ t.data, isLowerAlnumChar c = true) :
    ∀ c ∈ (joinWords ts).data, isLowerAlnumChar c = true ∨ c = ' ' := by
  induction ts with
  | nil => intro c hc; cases hc
  | cons w tail ih =>
    cases tail with
    | nil =>
      intro c hc
      exact Or.inl (h w (List.mem_cons_self w _) c hc)
    | cons v rest =>
      intro c hc
      rw [show joinWords (w :: v :: rest) = w ++ " " ++ joinWords (v :: rest)
        from rfl, string_data_append, string_data_append] at hc
      rcases List.mem_append.mp hc with hc | hc
      · rcases List.mem_append.mp hc with hc | hc
        · exact Or.inl (h w (List.mem_cons_self w _) c hc)
        · right
          simpa using hc
      · exact ih (fun t ht => h t (List.mem_cons_of_mem w ht)) c hc

/-- Lowercasing fixes a string of lowercase alphanumeric and space
characters. -/
theorem pyLower_fixed (s : String)
    (h : ∀ c ∈ s.data, isLowerAlnumChar c = true ∨ c = ' ') :
    pyLower s = s := by
  unfold pyLower
  rw [show s.data.map charLower = s.data from ?_, string_mk_data]
  rw [show s.data = s.data.map id from (List.map_id _).symm]
  rw [List.map_map]
  apply List.map_congr_left
  intro c hc
  rcases h c (by simpa using hc) with hc' | hc'
  · exact charLower_fixed c hc'
  · subst hc'
    rfl

/-- On a single-space join of nonempty lowercase alphanumeric tokens that
all pass the keep filter, the serving normalizer reduces to stemming each
token and rejoining. -/
theorem preprocess_text_clean (ts : List String)
    (hne : ∀ t ∈ ts, t ≠ "")
    (hch : ∀ t ∈ ts, ∀ c ∈ t.data, isLowerAlnumChar c = true)
    (hkeep : ∀ t ∈ ts, keepToken t = true) :
    preprocess_text (joinWords ts) = joinWords (ts.map porterStem) := by
  unfold preprocess_text
  rw [pyLower_fixed _ (joinWords_chars ts hch)]
  rw [wordTokenize_joinWords ts (fun t ht =>
    ⟨string_data_ne t (hne t ht),
     fun c hc => isSpaceChar_eq_false_of_lowerAlnum c (hch t ht c hc)⟩)]
  show joinWords (List.map porterStem (List.filter keepToken ts)) =
    joinWords (List.map porterStem ts)
  rw [List.filter_eq_self.mpr hkeep]

/-- C8 fails as stated: the text agains is a single lowercase alphanumeric
non-stopword token, yet its stem again is a stopword, so the second
normalization pass drops it: normalize agains is again, normalize again is
empty, hence normalize is not idempotent on its own output there. -/
theorem c8_counterexample :
    preprocess_text "agains" = "again" ∧
    preprocess_text "again" = "" ∧
    preprocess_text (preprocess_text "agains") ≠ preprocess_text "agains" :=
  ⟨rfl, rfl, by decide⟩

/-- C8 amended: the normalizer is idempotent on a text of single-space
separated lowercase alphanumeric non-stopword tokens provided additionally
that the stem of each token is itself nonempty, lowercase alphanumeric,
kept by the filter (in particular not a stopword) and a fixed point of the
stemmer. -/
theorem c8_amended_idempotent (ts : List String)
    (hne : ∀ t ∈ ts, t ≠ "")
    (hch : ∀ t ∈ ts, ∀ c ∈ t.data, isLowerAlnumChar c = true)
    (hkeep : ∀ t ∈ ts, keepToken t = true)
    (hstem : ∀ t ∈ ts, porterStem t ≠ "" ∧
      (∀ c ∈ (porterStem t).data, isLowerAlnumChar c = true) ∧
      keepToken (porterStem t) = true ∧
      porterStem (porterStem t) = porterStem t) :
    preprocess_text (preprocess_text (joinWords ts)) =
      preprocess_text (joinWords ts) := by
  have h1 := preprocess_text_clean ts hne hch hkeep
  have h2 := preprocess_text_clean (ts.map porterStem)
    (fun t' ht' => by
      obtain ⟨t, ht, rfl⟩ := List.mem_map.mp ht'
      exact (hstem t ht).1)
    (fun t' ht' => by
      obtain ⟨t, ht, rfl⟩ := List.mem_map.mp ht'
      exact (hstem t ht).2.1)
    (fun t' ht' => by
      obtain ⟨t, ht, rfl⟩ := List.mem_map.mp ht'
      exact (hstem t ht).2.2.1)
  rw [h1, h2, List.map_map]
  congr 1
  apply List.map_congr_left
  intro t ht
  exact (hstem t ht).2.2.2

/-- Closed instance of c8_amended_idempotent on the two-token text made of
run and fast, both of which are stemmer fixed points. -/
theorem c8_amended_idempotent_witness :
    preprocess_text (preprocess_text (joinWords ["run", "fast"])) =
      preprocess_text (joinWords ["run", "fast"]) :=
  c8_amended_idempotent ["run", "fast"] (by decide) (by decide) (by decide)
    (by decide)
